import Mathlib

/-!
Verification development for the bifrost.js `api-derive` convert module
(src/packages/api-derive/src/convert/convert.ts).

The reactive layer is embedded shallowly: an observable is a finite trace of
timestamped emissions on a shared discrete clock, together with an optional
terminal-error time.  `combineLatest`, `map` (with a possibly throwing body)
and `mergeMap` are translated from their RxJS semantics as used by the source:
`combineLatest` over a nonempty source list emits, at every tick at which some
source emits and every source has already emitted, the list of latest values
of all sources, and over the empty list it completes at once without emitting;
a throwing `map` body terminates the stream with an error; `mergeMap` merges
the emissions of every inner stream spawned at an outer emission.

Numbers: pool fields are arbitrary-precision non-negative integers (`BN`),
embedded as `Nat`.  `BN.prototype.toNumber` succeeds exactly on values below
`2 ^ 53` and throws an assertion otherwise; `BN.prototype.div` is truncated
integer division, which on `Nat` is `/`.  JavaScript float values appearing in
the annualized-rate computation are embedded as exact rationals, with `none`
standing for the non-finite results (Infinity / NaN) of a division by zero.
-/

namespace BifrostConvert

/-- A (finite-trace) observable: timestamped emissions on a global discrete
clock, plus the time of a terminal error, if any. -/
structure Obs (α : Type) where
  events : List (Nat × α)
  err : Option Nat
deriving DecidableEq

/-- The latest value a source has emitted at or before tick `t`. -/
def latestAt {α : Type} (o : Obs α) (t : Nat) : Option α :=
  ((o.events.filter (fun e => decide (e.1 ≤ t))).map Prod.snd).getLast?

/-- Collapse a list of optional values: `some` of the list of values when all
are present, `none` otherwise. -/
def allSome {α : Type} : List (Option α) → Option (List α)
  | [] => some []
  | none :: _ => none
  | some a :: rest => (allSome rest).map (fun vs => a :: vs)

/-- Insert a tick into a sorted duplicate-free tick list. -/
def insertTick (t : Nat) : List Nat → List Nat
  | [] => [t]
  | u :: us =>
    if t < u then t :: u :: us
    else if t = u then u :: us
    else u :: insertTick t us

/-- Sort a tick list and drop duplicates. -/
def sortedTicks : List Nat → List Nat
  | [] => []
  | t :: ts => insertTick t (sortedTicks ts)

/-- The least element of a tick list, if any. -/
def minTimeList : List Nat → Option Nat
  | [] => none
  | t :: ts =>
    match minTimeList ts with
    | none => some t
    | some u => some (min t u)

/-- The earliest terminal-error time among a list of sources. -/
def firstErrTime {α : Type} (sources : List (Obs α)) : Option Nat :=
  minTimeList (sources.filterMap Obs.err)

/-- Whether tick `u` lies strictly before the earliest source error. -/
def beforeErr {α : Type} (sources : List (Obs α)) (u : Nat) : Bool :=
  match firstErrTime sources with
  | none => true
  | some te => decide (u < te)

/-- The candidate emission ticks of a combination: the sorted union of all
source emission ticks that lie before the earliest source error. -/
def combineTicks {α : Type} (sources : List (Obs α)) : List Nat :=
  (sortedTicks (sources.flatMap (fun s => s.events.map Prod.fst))).filter
    (beforeErr sources)

/-- RxJS `combineLatest` on a list of sources: with no sources the result
completes immediately without emitting; otherwise it emits, at each candidate
tick at which every source has already emitted, the list of the latest values
of all sources, and it errors at the earliest source error. -/
def combineLatest {α : Type} (sources : List (Obs α)) : Obs (List α) :=
  if sources.isEmpty then { events := [], err := none }
  else
    { events := (combineTicks sources).filterMap (fun u =>
        (allSome (sources.map (fun s => latestAt s u))).map (fun ws => (u, ws))),
      err := firstErrTime sources }

/-- RxJS `map` with a non-throwing body. -/
def Obs.mapO {α β : Type} (o : Obs α) (f : α → β) : Obs β :=
  { events := o.events.map (fun e => (e.1, f e.2)), err := o.err }

/-- Event-list part of `Obs.mapE`: apply a possibly throwing body to each
emission in order; the first throw terminates the stream with an error at the
tick of the offending emission. -/
def mapEAux {α β : Type} (f : α → Except String β) :
    List (Nat × α) → Option Nat → List (Nat × β) × Option Nat
  | [], e0 => ([], e0)
  | (u, a) :: rest, e0 =>
    match f a with
    | Except.ok b =>
      let r := mapEAux f rest e0
      ((u, b) :: r.1, r.2)
    | Except.error _ => ([], some u)

/-- RxJS `map` with a body that may throw: emissions are mapped in order until
the first throw, which becomes a terminal error of the stream. -/
def Obs.mapE {α β : Type} (o : Obs α) (f : α → Except String β) : Obs β :=
  { events := (mapEAux f o.events o.err).1, err := (mapEAux f o.events o.err).2 }

/-- RxJS `mergeMap`: every outer emission spawns the inner stream obtained
from its value; the result merges the emissions of all spawned inner streams
from their spawn tick on, and errors at the earliest propagated error. -/
def Obs.mergeMap {γ β : Type} (o : Obs γ) (f : γ → Obs β) : Obs β :=
  { events := o.events.flatMap (fun e =>
      (f e.2).events.filter (fun ev => decide (e.1 ≤ ev.1))),
    err := minTimeList ((o.events.filterMap (fun e =>
      match (f e.2).err with
      | some te => if e.1 ≤ te then some te else none
      | none => none)) ++ o.err.toList) }

/-- RxJS `combineLatest([o1, o2])` followed by the pair destructuring done by
the source: each emitted two-element list becomes a pair. -/
def combineLatestPair {α : Type} (o1 o2 : Obs α) : Obs (α × α) :=
  { events := (combineLatest [o1, o2]).events.filterMap (fun e =>
      match e.2 with
      | [a, b] => some (e.1, (a, b))
      | _ => none),
    err := (combineLatest [o1, o2]).err }

/-- Modelled from the spec: the opaque enumerated token symbols (`vToken`,
declared in `src/packages/api-derive/src/type`, which is not part of the
sources provided); the concrete constructors are placeholders for the fixed
universe of convertible assets. -/
inductive vToken
  | vDOT
  | vKSM
  | vEOS
deriving DecidableEq

/-- Modelled from the spec: the fixed ordered default token universe
(`bifrostVtokenList` of `src/packages/api-derive/src/type`). -/
def bifrostVtokenList : List vToken := [vToken.vDOT, vToken.vKSM, vToken.vEOS]

/-- Opaque block-hash identifier. -/
abbrev BlockHash := Nat

/-- The typed pool-state record built by `getPoolInfo`; in the source all four
fields are `BN` values (arbitrary-precision non-negative integers). -/
structure convertPool where
  current_reward : Nat
  pending_reward : Nat
  token_pool : Nat
  vtoken_pool : Nat
deriving DecidableEq

/-- The chain-client capabilities consumed by the module: the live pool query
`api.query.convert.pool(token)`, the pinned historical query
`api.query.convert.pool.at(hash, token)`, and — modelled from the spec — the
designated-historical-block-hash stream produced by `getDesignatedBlockHash`
(declared in `src/packages/api-derive/src/util`, not part of the sources
provided). -/
structure ApiInterfaceRx where
  pool : vToken → Obs convertPool
  poolAt : BlockHash → vToken → Obs convertPool
  designatedBlockHash : Obs BlockHash

/-- `getPoolInfo`: choose the live or the pinned pool query and map the raw
record field-wise through the `BN` constructor (identity on the embedded
values). -/
def getPoolInfo (api : ApiInterfaceRx) (tokenSymbol : vToken)
    (preBlockHash : Option BlockHash) : Obs convertPool :=
  let result :=
    match preBlockHash with
    | none => api.pool tokenSymbol
    | some h => api.poolAt h tokenSymbol
  result.mapO (fun res =>
    { current_reward := res.current_reward
      pending_reward := res.pending_reward
      token_pool := res.token_pool
      vtoken_pool := res.vtoken_pool })

/-- The argument defaulting shared by the three batch functions: an omitted
token list means the full default universe. -/
def vTokenListOf (vTokenArray : Option (List vToken)) : List vToken :=
  match vTokenArray with
  | none => bifrostVtokenList
  | some a => a

/-- `getAllVtokenConvertInfo`: fan the pool query out over the (defaulted)
token list and combine-latest the per-token streams. -/
def getAllVtokenConvertInfo (api : ApiInterfaceRx)
    (vTokenArray : Option (List vToken)) : Obs (List convertPool) :=
  combineLatest ((vTokenListOf vTokenArray).map (fun vtk => getPoolInfo api vtk none))

/-- `BN.prototype.toNumber`: exact conversion to a native number for values
below `2 ^ 53`; larger values throw an assertion (they can not be represented
safely). -/
def toNumber (n : Nat) : Except String Nat :=
  if n < 2 ^ 53 then Except.ok n
  else Except.error ("Number can only safely store up to 53 bits")

/-- The value a conversion-price emission carries: the JavaScript number
literal `0` from the zero-divisor branch, or a `BN` object from the division
branch.  These are distinct JavaScript values even when the `BN` holds 0. -/
inductive ConvertPrice
  | zeroNum
  | bn (value : Nat)
deriving DecidableEq

/-- Numeric value of a price emission (the JavaScript `ToNumber` coercion of
either variant). -/
def ConvertPrice.val : ConvertPrice → ℚ
  | ConvertPrice.zeroNum => 0
  | ConvertPrice.bn n => (n : ℚ)

/-- The JavaScript strict comparison `p !== 0` used by `getAnnualizedRate`; a
`BN` object is never strictly equal to the number `0`, whatever it holds. -/
def ConvertPrice.strictNeZero : ConvertPrice → Bool
  | ConvertPrice.zeroNum => false
  | ConvertPrice.bn _ => true

/-- The body of the `map` inside `getConvertPriceInfo`: convert `token_pool`
to a native number, test `vtoken_pool.toNumber()` for truthiness, and either
divide (`BN` truncated division) or yield the number literal `0`.  Either
conversion throws for values of 2 ^ 53 or more. -/
def convertPriceOfPool (result : convertPool) : Except String ConvertPrice :=
  (toNumber result.token_pool).bind (fun tokenPool =>
    (toNumber result.vtoken_pool).bind (fun cond =>
      if cond ≠ 0 then
        (toNumber result.vtoken_pool).bind (fun vtokenPool =>
          Except.ok (ConvertPrice.bn (tokenPool / vtokenPool)))
      else
        Except.ok ConvertPrice.zeroNum))

/-- `getConvertPriceInfo`: the pool stream mapped through the price body. -/
def getConvertPriceInfo (api : ApiInterfaceRx) (tokenSymbol : vToken)
    (preBlockHash : Option BlockHash) : Obs ConvertPrice :=
  (getPoolInfo api tokenSymbol preBlockHash).mapE convertPriceOfPool

/-- `getAllConvertPriceInfo`: fan the price query out over the (defaulted)
token list and combine-latest the per-token streams. -/
def getAllConvertPriceInfo (api : ApiInterfaceRx)
    (vTokenArray : Option (List vToken)) : Obs (List ConvertPrice) :=
  combineLatest ((vTokenListOf vTokenArray).map (fun vtk =>
    getConvertPriceInfo api vtk none))

/-- JavaScript division on finite values embedded as rationals: `none` stands
for the non-finite float (Infinity or NaN) produced by a zero divisor. -/
def jsDiv (a b : ℚ) : Option ℚ :=
  if b = 0 then none else some (a / b)

/-- The body of the `map` inside `getAnnualizedRate`: if the historical price
is not strictly equal to the number `0` (that is, it is a `BN` object),
compute `(currentPrice - historicalPrice) / historicalPrice / 7 * 365` with
both operands coerced to numbers, else yield `0`. -/
def rateOf (currentPrice historicalPrice : ConvertPrice) : Option ℚ :=
  if historicalPrice.strictNeZero then
    ((jsDiv (currentPrice.val - historicalPrice.val) historicalPrice.val).bind
      (fun x => jsDiv x 7)).map (fun y => y * 365)
  else
    some 0

/-- `getAnnualizedRate`: combine the live price with the price at the
designated historical block (obtained through `mergeMap` over the resolver
stream) and map the pair through the rate body. -/
def getAnnualizedRate (api : ApiInterfaceRx) (tokenSymbol : vToken) :
    Obs (Option ℚ) :=
  let currentPrice := getConvertPriceInfo api tokenSymbol none
  let historicalPrice := api.designatedBlockHash.mergeMap (fun preHash =>
    getConvertPriceInfo api tokenSymbol (some preHash))
  (combineLatestPair currentPrice historicalPrice).mapO (fun p => rateOf p.1 p.2)

/-- `getAllAnnualizedRate`: fan the rate query out over the (defaulted) token
list and combine-latest the per-token streams. -/
def getAllAnnualizedRate (api : ApiInterfaceRx)
    (vTokenArray : Option (List vToken)) : Obs (List (Option ℚ)) :=
  combineLatest ((vTokenListOf vTokenArray).map (fun vtk =>
    getAnnualizedRate api vtk))

/-- `getBatchConvertPrice`: for each emitted hash list, combine-latest the
price streams pinned at every hash of the list, merging across successive
lists. -/
def getBatchConvertPrice (api : ApiInterfaceRx) (tokenSymbol : vToken)
    (blockHashArray : Obs (List BlockHash)) : Obs (List ConvertPrice) :=
  blockHashArray.mergeMap (fun blockHashList =>
    combineLatest (blockHashList.map (fun blockHash =>
      getConvertPriceInfo api tokenSymbol (some blockHash))))

/-- Modelled from the spec: the state of the external memo capability
(`memo` of `@polkadot/api-derive/util`, consumed by every exported function
of the module) for one wrapped derivation on one instance — the cache of
argument-keyed streams together with a count of invocations of the wrapped
body. -/
structure MemoState (κ ω : Type) where
  entries : List (κ × ω)
  invocations : Nat
deriving DecidableEq

/-- Modelled from the spec: the state right after `memo(instanceId, fn)`
returns the wrapped function — an empty cache, the body not yet invoked. -/
def memoInit {κ ω : Type} : MemoState κ ω :=
  { entries := [], invocations := 0 }

/-- Modelled from the spec: one call of the wrapped function — return the
cached stream unchanged on a key hit, otherwise invoke the body once and
cache the resulting stream under the key. -/
def memoApply {κ ω : Type} [DecidableEq κ] (fn : κ → ω) (s : MemoState κ ω)
    (k : κ) : ω × MemoState κ ω :=
  match s.entries.lookup k with
  | some w => (w, s)
  | none =>
    let w := fn k
    (w, { entries := (k, w) :: s.entries, invocations := s.invocations + 1 })

/-- The pool-info body keyed the way the memo layer sees it: one argument
tuple. -/
def poolInfoKeyed (api : ApiInterfaceRx) :
    vToken × Option BlockHash → Obs convertPool :=
  fun q => getPoolInfo api q.1 q.2

theorem allSome_length {α : Type} :
    ∀ {l : List (Option α)} {vs : List α}, allSome l = some vs → vs.length = l.length := by
  intro l
  induction l with
  | nil =>
    intro vs h
    simp [allSome] at h
    simp [h.symm]
  | cons hd tl ih =>
    intro vs h
    cases hd with
    | none => simp [allSome] at h
    | some a =>
      simp only [allSome, Option.map_eq_some'] at h
      obtain ⟨ws, hws, hvs⟩ := h
      subst hvs
      simp [ih hws]

theorem allSome_get {α : Type} :
    ∀ {l : List (Option α)} {vs : List α}, allSome l = some vs →
      ∀ i (hl : i < l.length) (hv : i < vs.length),
        l.get ⟨i, hl⟩ = some (vs.get ⟨i, hv⟩) := by
  intro l
  induction l with
  | nil =>
    intro vs _ i hl
    simp at hl
  | cons hd tl ih =>
    intro vs h i hl hv
    cases hd with
    | none => simp [allSome] at h
    | some a =>
      simp only [allSome, Option.map_eq_some'] at h
      obtain ⟨ws, hws, hvs⟩ := h
      subst hvs
      cases i with
      | zero => simp
      | succ j =>
        have hl2 : j < tl.length := Nat.lt_of_succ_lt_succ hl
        have hv2 : j < ws.length := Nat.lt_of_succ_lt_succ hv
        simpa using ih hws j hl2 hv2

theorem combineLatest_mem {α : Type} {sources : List (Obs α)} {t : Nat}
    {vs : List α} (h : (t, vs) ∈ (combineLatest sources).events) :
    vs.length = sources.length ∧
      ∀ i (hi : i < sources.length) (hv : i < vs.length),
        latestAt (sources.get ⟨i, hi⟩) t = some (vs.get ⟨i, hv⟩) := by
  cases sources with
  | nil => simp [combineLatest] at h
  | cons s0 rest =>
    rw [combineLatest, if_neg (by simp)] at h
    simp only [List.mem_filterMap, Option.map_eq_some'] at h
    obtain ⟨u, _, ws, hws, hpair⟩ := h
    have ht : u = t := congrArg Prod.fst hpair
    have hvs : ws = vs := congrArg Prod.snd hpair
    subst ht
    subst hvs
    constructor
    · simpa using allSome_length hws
    · intro i hi hv
      have hi2 : i < ((s0 :: rest).map (fun s => latestAt s u)).length := by
        simpa using hi
      have hgot := allSome_get hws i hi2 hv
      simp only [List.get_eq_getElem] at hgot ⊢
      rw [List.getElem_map] at hgot
      exact hgot

theorem mapEAux_mem {α β : Type} {f : α → Except String β} :
    ∀ {es : List (Nat × α)} {e0 : Option Nat} {t : Nat} {a : α} {b : β},
      (t, a) ∈ es → (∀ p ∈ es, ∃ c, f p.2 = Except.ok c) →
      f a = Except.ok b → (t, b) ∈ (mapEAux f es e0).1 := by
  intro es
  induction es with
  | nil =>
    intro e0 t a b hmem
    simp at hmem
  | cons hd tl ih =>
    intro e0 t a b hmem hall hfa
    obtain ⟨u, a0⟩ := hd
    obtain ⟨b0, hb0⟩ := hall (u, a0) (List.mem_cons_self _ _)
    rw [List.mem_cons] at hmem
    cases hmem with
    | inl heq =>
      have hu : t = u := congrArg Prod.fst heq
      have ha : a = a0 := congrArg Prod.snd heq
      subst hu
      subst ha
      have hbb : b0 = b := Except.ok.inj (hb0.symm.trans hfa)
      subst hbb
      simp [mapEAux, hb0]
    | inr htl =>
      have hrec := @ih e0 t a b htl
        (fun p hp => hall p (List.mem_cons_of_mem _ hp)) hfa
      simp [mapEAux, hb0]
      exact Or.inr hrec

theorem mapEAux_err {α β : Type} {f : α → Except String β} :
    ∀ {es : List (Nat × α)} {e0 : Option Nat} {q : Nat × α},
      q ∈ es → (∀ c, f q.2 ≠ Except.ok c) →
      ((mapEAux f es e0).2).isSome = true := by
  intro es
  induction es with
  | nil =>
    intro e0 q hmem
    simp at hmem
  | cons hd tl ih =>
    intro e0 q hmem hbad
    obtain ⟨u, a0⟩ := hd
    cases hfa0 : f a0 with
    | error msg => simp [mapEAux, hfa0]
    | ok b0 =>
      rw [List.mem_cons] at hmem
      cases hmem with
      | inl heq =>
        exfalso
        have ha : q.2 = a0 := congrArg Prod.snd heq
        exact hbad b0 (by rw [ha, hfa0])
      | inr htl =>
        have hrec := @ih e0 q htl hbad
        simpa [mapEAux, hfa0] using hrec

theorem mergeMap_mem {γ β : Type} {o : Obs γ} {f : γ → Obs β} {t : Nat}
    {b : β} (h : (t, b) ∈ (o.mergeMap f).events) :
    ∃ s l, (s, l) ∈ o.events ∧ s ≤ t ∧ (t, b) ∈ (f l).events := by
  simp only [Obs.mergeMap, List.mem_flatMap, List.mem_filter] at h
  obtain ⟨e, he, hin, hle⟩ := h
  exact ⟨e.1, e.2, he, by simpa using hle, hin⟩

theorem convertPriceOfPool_div {p : convertPool} (h1 : p.token_pool < 2 ^ 53)
    (h2 : p.vtoken_pool < 2 ^ 53) (hv : p.vtoken_pool ≠ 0) :
    convertPriceOfPool p =
      Except.ok (ConvertPrice.bn (p.token_pool / p.vtoken_pool)) := by
  have h1n : p.token_pool < 9007199254740992 := by simpa using h1
  have h2n : p.vtoken_pool < 9007199254740992 := by simpa using h2
  simp [convertPriceOfPool, toNumber, h1n, h2n, hv, Except.bind]

theorem convertPriceOfPool_zero {p : convertPool} (h1 : p.token_pool < 2 ^ 53)
    (hz : p.vtoken_pool = 0) :
    convertPriceOfPool p = Except.ok ConvertPrice.zeroNum := by
  have h1n : p.token_pool < 9007199254740992 := by simpa using h1
  simp [convertPriceOfPool, toNumber, h1n, hz, Except.bind]

theorem convertPriceOfPool_ok {p : convertPool} (h1 : p.token_pool < 2 ^ 53)
    (h2 : p.vtoken_pool < 2 ^ 53) :
    ∃ c, convertPriceOfPool p = Except.ok c := by
  by_cases hv : p.vtoken_pool = 0
  · exact ⟨_, convertPriceOfPool_zero h1 hv⟩
  · exact ⟨_, convertPriceOfPool_div h1 h2 hv⟩

theorem convertPriceOfPool_err {p : convertPool}
    (h : 2 ^ 53 ≤ p.token_pool ∨ 2 ^ 53 ≤ p.vtoken_pool) :
    ∀ c, convertPriceOfPool p ≠ Except.ok c := by
  intro c
  cases h with
  | inl h1 =>
    have h1n : ¬ p.token_pool < 9007199254740992 := by
      simpa using Nat.not_lt_of_le h1
    simp [convertPriceOfPool, toNumber, h1n, Except.bind]
  | inr h2 =>
    have h2n : ¬ p.vtoken_pool < 9007199254740992 := by
      simpa using Nat.not_lt_of_le h2
    by_cases h1 : p.token_pool < 2 ^ 53
    · have h1n : p.token_pool < 9007199254740992 := by simpa using h1
      simp [convertPriceOfPool, toNumber, h1n, h2n, Except.bind]
    · have h1n : ¬ p.token_pool < 9007199254740992 := by simpa using h1
      simp [convertPriceOfPool, toNumber, h1n, Except.bind]

theorem combineLatest_map_mem {α β : Type} {g : β → Obs α} {l : List β}
    {t : Nat} {vs : List α} (h : (t, vs) ∈ (combineLatest (l.map g)).events) :
    vs.length = l.length ∧
      ∀ i (hi : i < l.length) (hv : i < vs.length),
        latestAt (g (l.get ⟨i, hi⟩)) t = some (vs.get ⟨i, hv⟩) := by
  have hc := combineLatest_mem h
  refine ⟨by simpa using hc.1, fun i hi hv => ?_⟩
  have hi2 : i < (l.map g).length := by simpa using hi
  have hgot := hc.2 i hi2 hv
  simp only [List.get_eq_getElem] at hgot ⊢
  rw [List.getElem_map] at hgot
  exact hgot

theorem memoApply_idem {κ ω : Type} [DecidableEq κ] (fn : κ → ω)
    (s : MemoState κ ω) (k : κ) :
    (memoApply fn (memoApply fn s k).2 k).1 = (memoApply fn s k).1 ∧
      (memoApply fn (memoApply fn s k).2 k).2 = (memoApply fn s k).2 := by
  cases hl : s.entries.lookup k with
  | some w => simp [memoApply, hl]
  | none => simp [memoApply, hl, List.lookup]

theorem memoApply_init_calls {κ ω : Type} [DecidableEq κ] (fn : κ → ω)
    (k : κ) : (memoApply fn (memoInit : MemoState κ ω) k).2.invocations ≤ 1 := by
  simp [memoApply, memoInit, List.lookup]

/-! Concrete fixtures used by witnesses and counterexamples. -/

/-- A pool state with both fields in native range and a nonzero vtoken pool. -/
def poolOkCur : convertPool :=
  { current_reward := 1, pending_reward := 1, token_pool := 10, vtoken_pool := 2 }

/-- A historical pool state with both fields in native range. -/
def poolOkHist : convertPool :=
  { current_reward := 1, pending_reward := 1, token_pool := 8, vtoken_pool := 2 }

/-- A pool state whose token pool exceeds the native safe-integer range. -/
def bigPool : convertPool :=
  { current_reward := 0, pending_reward := 0, token_pool := 2 ^ 53, vtoken_pool := 1 }

/-- A pool state with zero vtoken pool and an out-of-range token pool. -/
def bigZeroPool : convertPool :=
  { current_reward := 0, pending_reward := 0, token_pool := 2 ^ 53, vtoken_pool := 0 }

/-- A pool state with zero vtoken pool and an in-range token pool. -/
def zeroVPool : convertPool :=
  { current_reward := 1, pending_reward := 1, token_pool := 1000, vtoken_pool := 0 }

/-- A chain client whose live pool emits an in-range state at tick 0 and whose
pinned historical pool emits an in-range state at ticks 0 and 1. -/
def apiOk : ApiInterfaceRx :=
  { pool := fun _ => { events := [(0, poolOkCur)], err := none }
    poolAt := fun _ _ => { events := [(0, poolOkHist), (1, poolOkHist)], err := none }
    designatedBlockHash := { events := [(0, 7)], err := none } }

/-- A chain client whose live pool emits `bigPool` at tick 0. -/
def apiBigToken : ApiInterfaceRx :=
  { pool := fun _ => { events := [(0, bigPool)], err := none }
    poolAt := fun _ _ => { events := [], err := none }
    designatedBlockHash := { events := [], err := none } }

/-- A chain client whose live pool emits `bigZeroPool` at tick 0. -/
def apiBigZero : ApiInterfaceRx :=
  { pool := fun _ => { events := [(0, bigZeroPool)], err := none }
    poolAt := fun _ _ => { events := [], err := none }
    designatedBlockHash := { events := [], err := none } }

/-- A chain client whose live pool emits `zeroVPool` at tick 0. -/
def apiZeroV : ApiInterfaceRx :=
  { pool := fun _ => { events := [(0, zeroVPool)], err := none }
    poolAt := fun _ _ => { events := [], err := none }
    designatedBlockHash := { events := [], err := none } }

/-- A stream emitting the hash list `[5, 9]` at tick 0 and `[5]` at tick 1. -/
def hashListObs : Obs (List BlockHash) :=
  { events := [(0, [5, 9]), (1, [5])], err := none }

/-- The annualized-rate value produced by `apiOk` for any token: current price
`BN(5)` (from 10 / 2), historical price `BN(4)` (from 8 / 2). -/
def rateOkVal : Option ℚ := rateOf (ConvertPrice.bn 5) (ConvertPrice.bn 4)

/-! The claims. -/

/-- Claim C1, counterexample to the claim as stated: the pool state with
`token_pool = 2 ^ 53` and `vtoken_pool = 1` has a nonzero vtoken pool, yet the
price stream emits nothing at all for it — `toNumber` throws instead of
truncating the operand — so in particular it does not emit the quotient of
truncated operands. -/
theorem getConvertPriceInfo_quotient_counterexample :
    (0, bigPool) ∈ (getPoolInfo apiBigToken vToken.vDOT none).events ∧
      bigPool.vtoken_pool ≠ 0 ∧
      (getConvertPriceInfo apiBigToken vToken.vDOT none).events = [] :=
  ⟨by decide, by decide, by decide⟩

/-- Claim C1 (amended): for every pool state emitted by the pool stream whose
fields are all within the native safe-integer range (so that the `toNumber`
conversions are exact) and whose `vtoken_pool` is nonzero, the price stream
emits, at the same tick, the `BN` quotient `token_pool / vtoken_pool`
(truncated integer division). -/
theorem getConvertPriceInfo_quotient {api : ApiInterfaceRx} {tok : vToken}
    {h : Option BlockHash} {t : Nat} {p : convertPool}
    (hmem : (t, p) ∈ (getPoolInfo api tok h).events)
    (hall : ∀ q ∈ (getPoolInfo api tok h).events,
      q.2.token_pool < 2 ^ 53 ∧ q.2.vtoken_pool < 2 ^ 53)
    (hv : p.vtoken_pool ≠ 0) :
    (t, ConvertPrice.bn (p.token_pool / p.vtoken_pool)) ∈
      (getConvertPriceInfo api tok h).events := by
  have hfa := convertPriceOfPool_div (hall (t, p) hmem).1 (hall (t, p) hmem).2 hv
  exact mapEAux_mem hmem
    (fun q hq => convertPriceOfPool_ok (hall q hq).1 (hall q hq).2) hfa

/-- Claim C1, witness: on `apiOk` the pool emits `(token_pool 10, vtoken_pool
2)` and the price stream emits `BN(5)`. -/
theorem getConvertPriceInfo_quotient_witness :
    ((0, poolOkCur) ∈ (getPoolInfo apiOk vToken.vDOT none).events ∧
      poolOkCur.vtoken_pool ≠ 0) ∧
    (0, ConvertPrice.bn (poolOkCur.token_pool / poolOkCur.vtoken_pool)) ∈
      (getConvertPriceInfo apiOk vToken.vDOT none).events :=
  ⟨⟨by decide, by decide⟩,
    getConvertPriceInfo_quotient (by decide) (by decide) (by decide)⟩

/-- Claim C2 (code bug): the guard `historicalPrice !== 0` is a strict
comparison with the number literal `0`, so a historical price that is a `BN`
holding zero — produced whenever `token_pool < vtoken_pool ≠ 0` at the
designated block, as witnessed by the first conjunct — passes the guard, and
the rate body divides by its numeric value `0` and emits a non-finite float
(`none` in this model) instead of the claimed `0`; only the literal-zero price
from the zero-divisor branch takes the zero branch. -/
theorem getAnnualizedRate_zero_historical_bug :
    convertPriceOfPool
        { current_reward := 0, pending_reward := 0, token_pool := 1, vtoken_pool := 2 } =
      Except.ok (ConvertPrice.bn 0) ∧
    (ConvertPrice.bn 0).val = 0 ∧
    rateOf (ConvertPrice.bn 12) (ConvertPrice.bn 0) = none ∧
    rateOf ConvertPrice.zeroNum (ConvertPrice.bn 0) = none ∧
    rateOf (ConvertPrice.bn 12) ConvertPrice.zeroNum = some 0 :=
  ⟨rfl, by decide, by decide, by decide, by decide⟩

/-- Claim C3, counterexample to the claim as stated: the pool state with
`token_pool = 2 ^ 53` and `vtoken_pool = 0` has a zero vtoken pool, yet the
price stream emits nothing for it (and so not the value `0`): the `toNumber`
conversion of `token_pool`, run before the zero test, throws. -/
theorem getConvertPriceInfo_zero_counterexample :
    (0, bigZeroPool) ∈ (getPoolInfo apiBigZero vToken.vDOT none).events ∧
      bigZeroPool.vtoken_pool = 0 ∧
      (getConvertPriceInfo apiBigZero vToken.vDOT none).events = [] :=
  ⟨by decide, by decide, by decide⟩

/-- Claim C3 (amended): for every pool state emitted by the pool stream whose
fields are all within the native safe-integer range and whose `vtoken_pool`
is zero, the price stream emits, at the same tick, exactly the number literal
`0` (the division branch is not taken). -/
theorem getConvertPriceInfo_zero {api : ApiInterfaceRx} {tok : vToken}
    {h : Option BlockHash} {t : Nat} {p : convertPool}
    (hmem : (t, p) ∈ (getPoolInfo api tok h).events)
    (hall : ∀ q ∈ (getPoolInfo api tok h).events,
      q.2.token_pool < 2 ^ 53 ∧ q.2.vtoken_pool < 2 ^ 53)
    (hz : p.vtoken_pool = 0) :
    (t, ConvertPrice.zeroNum) ∈ (getConvertPriceInfo api tok h).events := by
  have hfa := convertPriceOfPool_zero (hall (t, p) hmem).1 hz
  exact mapEAux_mem hmem
    (fun q hq => convertPriceOfPool_ok (hall q hq).1 (hall q hq).2) hfa

/-- Claim C3, witness: on `apiZeroV` the pool emits `(token_pool 1000,
vtoken_pool 0)` and the price stream emits the number `0`. -/
theorem getConvertPriceInfo_zero_witness :
    ((0, zeroVPool) ∈ (getPoolInfo apiZeroV vToken.vDOT none).events ∧
      zeroVPool.vtoken_pool = 0) ∧
    (0, ConvertPrice.zeroNum) ∈ (getConvertPriceInfo apiZeroV vToken.vDOT none).events :=
  ⟨⟨by decide, by decide⟩,
    @getConvertPriceInfo_zero apiZeroV vToken.vDOT none 0 zeroVPool
      (by decide) (by decide) (by decide)⟩

/-- Claim C4: for every combined pair of prices whose historical price is
numerically nonzero, the emitted annualized rate is exactly
`(currentPrice - historicalPrice) / historicalPrice / 7 * 365`. -/
theorem getAnnualizedRate_formula (currentPrice historicalPrice : ConvertPrice)
    (h : historicalPrice.val ≠ 0) :
    rateOf currentPrice historicalPrice =
      some ((currentPrice.val - historicalPrice.val) / historicalPrice.val / 7 * 365) := by
  cases historicalPrice with
  | zeroNum => simp [ConvertPrice.val] at h
  | bn n =>
    have hn : ((n : ℚ)) ≠ 0 := h
    have h7 : ((7 : ℚ)) ≠ 0 := by norm_num
    simp [rateOf, ConvertPrice.strictNeZero, ConvertPrice.val, jsDiv, hn, h7]

/-- Claim C4, witness: the pair `(BN(12), BN(10))` yields the formula value
(which is `730 / 7`). -/
theorem getAnnualizedRate_formula_witness :
    (ConvertPrice.bn 10).val ≠ 0 ∧
      rateOf (ConvertPrice.bn 12) (ConvertPrice.bn 10) =
        some (((ConvertPrice.bn 12).val - (ConvertPrice.bn 10).val) /
          (ConvertPrice.bn 10).val / 7 * 365) :=
  ⟨by decide, getAnnualizedRate_formula _ _ (by decide)⟩

/-- Claim C5: every list emitted by any of the three batch functions has the
same length as the (explicitly supplied or defaulted) input token list, and
its `i`-th element is the latest value, at the emission tick, of the
per-token derived stream of the `i`-th input token. -/
theorem batch_fanout_order_length :
    (∀ (api : ApiInterfaceRx) (arr : Option (List vToken)) (t : Nat)
        (vs : List convertPool),
      (t, vs) ∈ (getAllVtokenConvertInfo api arr).events →
      vs.length = (vTokenListOf arr).length ∧
        ∀ i (hi : i < (vTokenListOf arr).length) (hv : i < vs.length),
          latestAt (getPoolInfo api ((vTokenListOf arr).get ⟨i, hi⟩) none) t =
            some (vs.get ⟨i, hv⟩)) ∧
    (∀ (api : ApiInterfaceRx) (arr : Option (List vToken)) (t : Nat)
        (vs : List ConvertPrice),
      (t, vs) ∈ (getAllConvertPriceInfo api arr).events →
      vs.length = (vTokenListOf arr).length ∧
        ∀ i (hi : i < (vTokenListOf arr).length) (hv : i < vs.length),
          latestAt (getConvertPriceInfo api ((vTokenListOf arr).get ⟨i, hi⟩) none) t =
            some (vs.get ⟨i, hv⟩)) ∧
    (∀ (api : ApiInterfaceRx) (arr : Option (List vToken)) (t : Nat)
        (vs : List (Option ℚ)),
      (t, vs) ∈ (getAllAnnualizedRate api arr).events →
      vs.length = (vTokenListOf arr).length ∧
        ∀ i (hi : i < (vTokenListOf arr).length) (hv : i < vs.length),
          latestAt (getAnnualizedRate api ((vTokenListOf arr).get ⟨i, hi⟩)) t =
            some (vs.get ⟨i, hv⟩)) :=
  ⟨fun _ _ _ _ h => combineLatest_map_mem h,
    fun _ _ _ _ h => combineLatest_map_mem h,
    fun _ _ _ _ h => combineLatest_map_mem h⟩

/-- Claim C5, witness: on `apiOk` with the explicit token list
`[vDOT, vKSM]`, each of the three batch functions emits a two-element list at
tick 0 whose first element is the derived value of `vDOT`. -/
theorem batch_fanout_order_length_witness :
    (((0, [poolOkCur, poolOkCur]) ∈
        (getAllVtokenConvertInfo apiOk (some [vToken.vDOT, vToken.vKSM])).events) ∧
      ([poolOkCur, poolOkCur] : List convertPool).length =
        (vTokenListOf (some [vToken.vDOT, vToken.vKSM])).length ∧
      latestAt (getPoolInfo apiOk vToken.vDOT none) 0 = some poolOkCur) ∧
    (latestAt (getConvertPriceInfo apiOk vToken.vDOT none) 0 =
      some (ConvertPrice.bn 5)) ∧
    (latestAt (getAnnualizedRate apiOk vToken.vDOT) 0 = some rateOkVal) := by
  have h1 := batch_fanout_order_length.1 apiOk (some [vToken.vDOT, vToken.vKSM]) 0
    [poolOkCur, poolOkCur] (by decide)
  have h2 := batch_fanout_order_length.2.1 apiOk (some [vToken.vDOT, vToken.vKSM]) 0
    [ConvertPrice.bn 5, ConvertPrice.bn 5] (by decide)
  have hev : (getAllAnnualizedRate apiOk (some [vToken.vDOT, vToken.vKSM])).events =
      [(0, [rateOkVal, rateOkVal]), (1, [rateOkVal, rateOkVal])] := rfl
  have hmem3 : ((0 : Nat), [rateOkVal, rateOkVal]) ∈
      (getAllAnnualizedRate apiOk (some [vToken.vDOT, vToken.vKSM])).events := by
    rw [hev]
    exact List.mem_cons_self _ _
  have h3 := batch_fanout_order_length.2.2 apiOk (some [vToken.vDOT, vToken.vKSM]) 0
    [rateOkVal, rateOkVal] hmem3
  exact ⟨⟨by decide, h1.1, h1.2 0 (by decide) (by decide)⟩,
    h2.2 0 (by decide) (by decide), h3.2 0 (by decide) (by decide)⟩

/-- Claim C6: the memo layer wrapping every exported derive function —
modelled from its specified contract, instantiated at the pool-info body —
satisfies: constructing the wrapped function invokes the body zero times; a
first call from the fresh state invokes it at most once; and a repeated call
with a structurally equal argument tuple, from any cache state, returns the
very same stream with no further invocation of the body. -/
theorem memoized_derive_calls (api : ApiInterfaceRx)
    (s : MemoState (vToken × Option BlockHash) (Obs convertPool))
    (k : vToken × Option BlockHash) :
    (memoInit : MemoState (vToken × Option BlockHash) (Obs convertPool)).invocations = 0 ∧
    (memoApply (poolInfoKeyed api) memoInit k).2.invocations ≤ 1 ∧
    (memoApply (poolInfoKeyed api) (memoApply (poolInfoKeyed api) s k).2 k).1 =
      (memoApply (poolInfoKeyed api) s k).1 ∧
    (memoApply (poolInfoKeyed api) (memoApply (poolInfoKeyed api) s k).2 k).2.invocations =
      (memoApply (poolInfoKeyed api) s k).2.invocations := by
  refine ⟨rfl, memoApply_init_calls _ _, (memoApply_idem _ s k).1, ?_⟩
  rw [(memoApply_idem (poolInfoKeyed api) s k).2]

/-- Claim C7: calling any of the three batch functions with the token-list
argument omitted returns the same stream as calling it with the full default
token universe. -/
theorem batch_default_universe (api : ApiInterfaceRx) :
    getAllVtokenConvertInfo api none =
        getAllVtokenConvertInfo api (some bifrostVtokenList) ∧
      getAllConvertPriceInfo api none =
        getAllConvertPriceInfo api (some bifrostVtokenList) ∧
      getAllAnnualizedRate api none =
        getAllAnnualizedRate api (some bifrostVtokenList) :=
  ⟨rfl, rfl, rfl⟩

/-- Claim C8: every price list emitted by `getBatchConvertPrice` originates
from some hash list emitted no later by the input hash-list stream, has
exactly that hash list's length, and its `i`-th element is the latest value,
at the emission tick, of the price stream pinned at the `i`-th hash. -/
theorem getBatchConvertPrice_shape {api : ApiInterfaceRx} {tokenSymbol : vToken}
    {blockHashArray : Obs (List BlockHash)} {t : Nat} {ps : List ConvertPrice}
    (h : (t, ps) ∈ (getBatchConvertPrice api tokenSymbol blockHashArray).events) :
    ∃ s hl, (s, hl) ∈ blockHashArray.events ∧ s ≤ t ∧ ps.length = hl.length ∧
      ∀ i (hi : i < hl.length) (hv : i < ps.length),
        latestAt (getConvertPriceInfo api tokenSymbol (some (hl.get ⟨i, hi⟩))) t =
          some (ps.get ⟨i, hv⟩) := by
  obtain ⟨s, l, hsl, hst, hin⟩ := mergeMap_mem h
  have hc := combineLatest_map_mem
    (g := fun blockHash => getConvertPriceInfo api tokenSymbol (some blockHash))
    (l := l) hin
  exact ⟨s, l, hsl, hst, hc.1, hc.2⟩

/-- Claim C8, witness: on `apiOk` with hash lists `[5, 9]` then `[5]`, the
result stream emits a two-element price list and then a one-element price
list; the theorem is applied at the later one-element emission. -/
theorem getBatchConvertPrice_shape_witness :
    ((1, [ConvertPrice.bn 4]) ∈
      (getBatchConvertPrice apiOk vToken.vDOT hashListObs).events) ∧
    ((0, [ConvertPrice.bn 4, ConvertPrice.bn 4]) ∈
      (getBatchConvertPrice apiOk vToken.vDOT hashListObs).events) ∧
    ∃ s hl, (s, hl) ∈ hashListObs.events ∧ s ≤ 1 ∧
      ([ConvertPrice.bn 4] : List ConvertPrice).length = hl.length ∧
      ∀ i (hi : i < hl.length)
          (hv : i < ([ConvertPrice.bn 4] : List ConvertPrice).length),
        latestAt (getConvertPriceInfo apiOk vToken.vDOT (some (hl.get ⟨i, hi⟩))) 1 =
          some (([ConvertPrice.bn 4] : List ConvertPrice).get ⟨i, hv⟩) :=
  ⟨by decide, by decide, getBatchConvertPrice_shape (by decide)⟩

/-- Claim C9: called with the empty token list, each batch function combines
latest over an empty array, which completes immediately: the result stream
has no emissions at all (in particular it never emits the empty list) and no
error. -/
theorem batch_empty_token_list (api : ApiInterfaceRx) :
    (getAllVtokenConvertInfo api (some [])).events = [] ∧
      (getAllVtokenConvertInfo api (some [])).err = none ∧
      (getAllConvertPriceInfo api (some [])).events = [] ∧
      (getAllConvertPriceInfo api (some [])).err = none ∧
      (getAllAnnualizedRate api (some [])).events = [] ∧
      (getAllAnnualizedRate api (some [])).err = none :=
  ⟨rfl, rfl, rfl, rfl, rfl, rfl⟩

/-- Claim C10: for every emitted pool state with `token_pool` or
`vtoken_pool` outside the native safe-integer range, the price body throws
(it yields no value at all, so no truncated price) and the price stream
terminates with an error. -/
theorem getConvertPriceInfo_overflow_errors {api : ApiInterfaceRx}
    {tok : vToken} {h : Option BlockHash} {t : Nat} {p : convertPool}
    (hmem : (t, p) ∈ (getPoolInfo api tok h).events)
    (hbig : 2 ^ 53 ≤ p.token_pool ∨ 2 ^ 53 ≤ p.vtoken_pool) :
    (∀ c, convertPriceOfPool p ≠ Except.ok c) ∧
      ((getConvertPriceInfo api tok h).err).isSome = true :=
  ⟨convertPriceOfPool_err hbig, mapEAux_err hmem (convertPriceOfPool_err hbig)⟩

/-- Claim C10, witness: on `apiBigToken` (live pool `token_pool = 2 ^ 53`),
the price stream errors. -/
theorem getConvertPriceInfo_overflow_errors_witness :
    (∀ c, convertPriceOfPool bigPool ≠ Except.ok c) ∧
      ((getConvertPriceInfo apiBigToken vToken.vDOT none).err).isSome = true :=
  @getConvertPriceInfo_overflow_errors apiBigToken vToken.vDOT none 0 bigPool
    (by decide) (Or.inl (by decide))

end BifrostConvert
